import Mathlib

/-!
Verification of the grid-trading core of the `binance-grid-trading` repository.

The Python source works with `decimal.Decimal` (arbitrary-precision decimal
arithmetic).  We embed decimal values as exact rationals (`ℚ`); the explicit
quantization steps of the source (`Decimal.quantize`, `to_integral_value`)
are modelled by the rounding primitives below.  A Python `Decimal` carries an
exponent in addition to its value; the only place the source consults the
exponent of a data value is `OrderManager._quantize_price`, which quantizes
to the exponent of `tick_size`, so the tick size is embedded as a pair of
value and exponent (`TickSize`), while every other decimal is a plain `ℚ`.

Database rows (SQLAlchemy entities) are embedded as structures collected in
a `DB` value; a repository/service method becomes a function from `DB` (and
the call's arguments plus an environment describing the exchange client's
responses) to a new `DB`.  SQLAlchemy sessions commit explicitly; writes of a
service call that rolls back are modelled by returning the input `DB`
unchanged, mirroring `session.rollback()` discarding every flushed-but-
uncommitted row.
-/

namespace BinanceGrid

/-! ## Rounding primitives (Python `decimal` rounding modes) -/

/-- Embeds `to_integral_value(rounding=ROUND_DOWN)`: round a rational to an integer
toward zero. -/
def truncInt (x : ℚ) : ℤ := if 0 ≤ x then ⌊x⌋ else -⌊-x⌋

/-- Embeds `Decimal.quantize(..., rounding=ROUND_DOWN)` to decimal exponent `e`:
the result is an integer multiple of `10 ^ e`, rounded toward zero. -/
def quantDown (e : ℤ) (x : ℚ) : ℚ := (truncInt (x / 10 ^ e)) * 10 ^ e

/-- Python `decimal`'s default rounding `ROUND_HALF_EVEN` to an integer:
round to the nearest integer, ties to the even neighbour. -/
def halfEvenInt (x : ℚ) : ℤ :=
  if x - ⌊x⌋ < 1/2 then ⌊x⌋
  else if 1/2 < x - ⌊x⌋ then ⌊x⌋ + 1
  else if ⌊x⌋ % 2 = 0 then ⌊x⌋ else ⌊x⌋ + 1

/-- Embeds `Decimal.quantize` with the context's default rounding (`ROUND_HALF_EVEN`)
to `p` decimal places, as used by `GridStrategy.calculate`. -/
def quantHalfEven (p : ℕ) (x : ℚ) : ℚ := (halfEvenInt (x * 10 ^ p)) / 10 ^ p

/-! ## Entities (`backend/entities/enums.py`) -/

inductive OrderSide where
  | BUY
  | SELL
deriving DecidableEq, Repr

inductive OrderStatus where
  | NEW
  | FILLED
  | PARTIALLY_FILLED
  | CANCELLED
deriving DecidableEq, Repr

inductive GridStatus where
  | RUNNING
  | STOPPED
  | COMPLETED
deriving DecidableEq, Repr

inductive TradeSide where
  | BUY
  | SELL
deriving DecidableEq, Repr

/-! ## Grid strategy (`backend/core/grid_strategy.py`) -/

/-- Embeds `GridLevelPlan` dataclass. -/
structure GridLevelPlan where
  level_index : ℤ
  price : ℚ
deriving DecidableEq, Repr

/-- Embeds `GridCalculationResult` dataclass. -/
structure GridCalculationResult where
  grid_spacing : ℚ
  investment_per_grid : ℚ
  levels : List GridLevelPlan
deriving DecidableEq, Repr

/-- Constructor arguments of `GridStrategy`. -/
structure GridStrategy where
  trading_pair : String
  upper_price : ℚ
  lower_price : ℚ
  grid_count : ℕ
  total_investment : ℚ
  price_precision : ℕ
deriving DecidableEq, Repr

namespace GridStrategy

def MIN_GRID_COUNT : ℕ := 5
def MAX_GRID_COUNT : ℕ := 100

/-- Embeds `GridStrategy._validate`, run by `__init__`; `ValidationError` becomes
`Except.error` with the source's message. -/
def validate (gs : GridStrategy) : Except String Unit :=
  if gs.upper_price ≤ gs.lower_price then
    .error "Upper price must be greater than lower price."
  else if ¬ (MIN_GRID_COUNT ≤ gs.grid_count ∧ gs.grid_count ≤ MAX_GRID_COUNT) then
    .error "Grid count must be between 5 and 100."
  else if gs.total_investment ≤ 0 then
    .error "Total investment must be greater than zero."
  else
    .ok ()

/-- Embeds `GridStrategy.calculate`.  `price.quantize(Decimal(price_quantize_str))`
passes no rounding mode, so the context default `ROUND_HALF_EVEN` applies to
every level price, to the spacing and to the per-level investment. -/
def calculate (gs : GridStrategy) : GridCalculationResult :=
  let grid_spacing : ℚ := (gs.upper_price - gs.lower_price) / (gs.grid_count : ℚ)
  let investment_per_grid : ℚ := gs.total_investment / (gs.grid_count : ℚ)
  let levels : List GridLevelPlan :=
    (List.range (gs.grid_count + 1)).map (fun (index : ℕ) =>
      { level_index := (index : ℤ) + 1
        price := quantHalfEven gs.price_precision (gs.lower_price + grid_spacing * (index : ℚ)) })
  { grid_spacing := quantHalfEven gs.price_precision grid_spacing
    investment_per_grid := quantHalfEven 8 investment_per_grid
    levels := levels }

end GridStrategy

/-! ## Order planner (`backend/core/order_manager.py`) -/

/-- A Python `Decimal` whose exponent matters (`tick_size`): `val` is its
numeric value, `exp` its decimal exponent (`Decimal("0.05")` has `exp = -2`). -/
structure TickSize where
  val : ℚ
  exp : ℤ
deriving DecidableEq, Repr

/-- Embeds `OrderPlan` dataclass. -/
structure OrderPlan where
  level_index : ℤ
  side : OrderSide
  price : ℚ
  quantity : ℚ
deriving DecidableEq, Repr

/-- Constructor arguments of `OrderManager`. -/
structure OrderManager where
  investment_per_grid : ℚ
  qty_precision : ℕ
  price_precision : ℕ
  step_size : Option ℚ
  tick_size : Option TickSize
  min_qty : Option ℚ
deriving DecidableEq, Repr

namespace OrderManager

/-- Embeds `OrderManager._quantize_price`: with a positive tick size, quantize to the
tick's decimal exponent with `ROUND_DOWN` (Python's `quantize` uses only the
exponent of its argument); otherwise round down to `price_precision` places.
The Python guard `if self.tick_size and self.tick_size > 0` is false for
`None` and for a zero or negative tick. -/
def quantizePrice (om : OrderManager) (price : ℚ) : ℚ :=
  match om.tick_size with
  | some t => if 0 < t.val then quantDown t.exp price
              else quantDown (-(om.price_precision : ℤ)) price
  | none => quantDown (-(om.price_precision : ℤ)) price

/-- Embeds `OrderManager._quantize_quantity`: floor to a multiple of `step_size`
(when set and positive), then round down to `qty_precision` places; raise
`ValueError` when the result is not positive. -/
def quantizeQuantity (om : OrderManager) (quantity : ℚ) : Except String ℚ :=
  let q1 : ℚ :=
    match om.step_size with
    | some step => if 0 < step then (truncInt (quantity / step) : ℚ) * step else quantity
    | none => quantity
  let q2 : ℚ := quantDown (-(om.qty_precision : ℤ)) q1
  if q2 ≤ 0 then .error "Calculated quantity is zero after applying symbol constraints"
  else .ok q2

/-- Embeds `OrderManager._calculate_quantity`: `investment_per_grid / price`
quantized; raise when the price is zero or the quantity is below a positive
`min_qty`.  The Python guard `if self.min_qty and self.min_qty > 0` is false
for `None` and for a zero min quantity. -/
def calculateQuantity (om : OrderManager) (price : ℚ) : Except String ℚ :=
  if price = 0 then .error "Price must be greater than zero for quantity calculation"
  else
    match om.quantizeQuantity (om.investment_per_grid / price) with
    | .error e => .error e
    | .ok quantity =>
      match om.min_qty with
      | some m =>
        if 0 < m ∧ quantity < m then
          .error "Calculated quantity is below the exchange minimum quantity"
        else .ok quantity
      | none => .ok quantity

/-- Embeds `OrderManager.create_paired_sell_order`: the first level in list order
whose index exceeds the filled buy's level, or `None`; the sell carries the
buy's quantity unchanged and the level's price quantized. -/
def createPairedSellOrder (om : OrderManager) (buy_level_index : ℤ)
    (_buy_price buy_quantity : ℚ) (levels : List GridLevelPlan) : Option OrderPlan :=
  match levels.find? (fun lvl => buy_level_index < lvl.level_index) with
  | none => none
  | some next_level =>
    some { level_index := next_level.level_index
           side := OrderSide.SELL
           price := om.quantizePrice next_level.price
           quantity := buy_quantity }

/-- The body of the `generate_orders` loop: plans for the given levels in
order, aborting at the first `ValueError`. -/
def generateOrdersGo (om : OrderManager) : List GridLevelPlan → Except String (List OrderPlan)
  | [] => .ok []
  | level :: rest =>
    let price := om.quantizePrice level.price
    match om.calculateQuantity price with
    | .error e => .error e
    | .ok quantity =>
      match generateOrdersGo om rest with
      | .error e => .error e
      | .ok orders =>
        .ok ({ level_index := level.level_index, side := OrderSide.BUY
               price := price, quantity := quantity } :: orders)

/-- Embeds `OrderManager.generate_orders`: one BUY plan per level except the highest
(the source iterates `levels[:-1]`); a `ValueError` from the quantity
computation aborts the whole generation. -/
def generateOrders (om : OrderManager) (levels : List GridLevelPlan) :
    Except String (List OrderPlan) :=
  if levels.length < 2 then .ok []
  else generateOrdersGo om levels.dropLast

end OrderManager

/-! ## Database rows and state (`backend/entities`, `backend/repositories`) -/

/-- Embeds `Order` entity row. -/
structure OrderRow where
  id : ℕ
  grid_id : ℕ
  grid_level : ℤ
  symbol : String
  side : OrderSide
  price : ℚ
  quantity : ℚ
  filled_quantity : ℚ
  status : OrderStatus
  paired_order_id : Option ℕ
  binance_order_id : String
deriving DecidableEq, Repr

/-- Embeds `Grid` entity row (the fields the embedded services consult). -/
structure GridRow where
  id : ℕ
  trading_pair : String
  upper_price : ℚ
  lower_price : ℚ
  grid_count : ℕ
  grid_spacing : ℚ
  total_investment : ℚ
  investment_per_grid : ℚ
  status : GridStatus
deriving DecidableEq, Repr

/-- Embeds `GridLevel` entity row. -/
structure GridLevelRow where
  grid_id : ℕ
  level_index : ℤ
  price : ℚ
deriving DecidableEq, Repr

/-- Embeds `Trade` entity row (timestamps omitted: wall-clock values, never read by
the embedded code paths). -/
structure TradeRow where
  grid_id : ℕ
  order_id : ℕ
  symbol : String
  side : TradeSide
  price : ℚ
  quantity : ℚ
  quote_quantity : ℚ
  commission : Option ℚ
  commission_asset : Option String
  is_maker : Bool
deriving DecidableEq, Repr

/-- The committed database.  `nextOrderId` stands for the id generator of the
`Order` table. -/
structure DB where
  grids : List GridRow
  levels : List GridLevelRow
  orders : List OrderRow
  trades : List TradeRow
  nextOrderId : ℕ
deriving DecidableEq, Repr

/-- Embeds `GridRepository.find_active_grid`: some grid whose status is RUNNING. -/
def DB.findActiveGrid (db : DB) : Option GridRow :=
  db.grids.find? (fun g => g.status = GridStatus.RUNNING)

/-- Embeds `GridRepository.find(grid_id)`. -/
def DB.findGrid (db : DB) (grid_id : ℕ) : Option GridRow :=
  db.grids.find? (fun g => g.id = grid_id)

/-- Embeds `OrderRepository.find_by_binance_order_id`. -/
def DB.findByBinanceOrderId (db : DB) (binance_order_id : String) : Option OrderRow :=
  db.orders.find? (fun o => o.binance_order_id = binance_order_id)

/-- Insertion sort ascending by level index (`ORDER BY level_index ASC`). -/
def insertLevelSorted (l : GridLevelRow) : List GridLevelRow → List GridLevelRow
  | [] => [l]
  | x :: xs => if l.level_index ≤ x.level_index then l :: x :: xs
               else x :: insertLevelSorted l xs

/-- Embeds `GridLevelRepository.get_by_grid_id`: the grid's levels sorted ascending
by `level_index`. -/
def DB.levelsByGridId (db : DB) (grid_id : ℕ) : List GridLevelRow :=
  (db.levels.filter (fun l => l.grid_id = grid_id)).foldr insertLevelSorted []

/-- Embeds `OrderRepository.find_filled_buys_without_pair`: FILLED BUY orders of the
grid whose id is referenced by no SELL order of the grid. -/
def DB.findFilledBuysWithoutPair (db : DB) (grid_id : ℕ) : List OrderRow :=
  let pairedIds : List ℕ :=
    (db.orders.filter (fun o =>
      o.grid_id = grid_id ∧ o.side = OrderSide.SELL ∧ o.paired_order_id ≠ none)).filterMap
      (fun o => o.paired_order_id)
  db.orders.filter (fun o =>
    o.grid_id = grid_id ∧ o.side = OrderSide.BUY ∧ o.status = OrderStatus.FILLED ∧
    ¬ pairedIds.contains o.id)

/-! ## Exchange client environment (`backend/core/binance_client.py` calls) -/

/-- Embeds `SymbolInfo` as consumed from `client.get_supported_symbols()`. -/
structure SymbolInfo where
  symbol : String
  qty_precision : ℕ
  price_precision : ℕ
  step_size : Option ℚ
  tick_size : Option TickSize
  min_qty : Option ℚ
deriving Repr

/-- One entry of `client.get_account_balances()`. -/
structure Balance where
  asset : String
  free : ℚ
deriving DecidableEq, Repr

/-- Responses of the exchange client during one service call: the supported
symbols, the ticker price, the account balances, and the outcome of
`place_order(symbol, side, order_type, quantity, price)` (the acknowledged
exchange order id, or a failure). -/
structure BinanceEnv where
  symbols : List SymbolInfo
  getPrice : String → ℚ
  balances : List Balance
  placeOrder : String → OrderSide → String → ℚ → ℚ → Except String String

/-- The dict comprehension over balances followed by `.get(asset, 0)`:
a later list entry for the same asset overrides an earlier one. -/
def lookupBalance (balances : List Balance) (asset : String) : ℚ :=
  ((balances.reverse.find? (fun b => b.asset = asset)).map (fun b => b.free)).getD 0

/-- The `OrderManager` that `GridEngine.initialize` (and the pairing service)
constructs from the per-level investment and the symbol's precision rules. -/
def plannerOf (investment_per_grid : ℚ) (si : SymbolInfo) : OrderManager :=
  { investment_per_grid := investment_per_grid
    qty_precision := si.qty_precision
    price_precision := si.price_precision
    step_size := si.step_size
    tick_size := si.tick_size
    min_qty := si.min_qty }

/-! ## Order pairing service (`backend/services/order_pairing_service.py`) -/

/-- Embeds `OrderPairingService.create_paired_sell_order(buy_order)`.  Returns the
source's boolean (sell created?) and the committed database after the call;
the exchange-failure path runs `session.rollback()`, leaving the database as
it was. -/
def createPairedSellOrderSvc (env : BinanceEnv) (db : DB) (buy : OrderRow) : Bool × DB :=
  if buy.side ≠ OrderSide.BUY then (false, db)
  else if buy.status ≠ OrderStatus.FILLED then (false, db)
  else if (db.orders.find? (fun o => o.paired_order_id = some buy.id)).isSome then (false, db)
  else
    match db.findGrid buy.grid_id with
    | none => (false, db)
    | some grid =>
      match env.symbols.find? (fun s => s.symbol = grid.trading_pair) with
      | none => (false, db)
      | some symbol_info =>
        let grid_level_plans : List GridLevelPlan :=
          (db.levelsByGridId buy.grid_id).map
            (fun l => { level_index := l.level_index, price := l.price })
        let om := plannerOf grid.investment_per_grid symbol_info
        match om.createPairedSellOrder buy.grid_level buy.price buy.filled_quantity
            grid_level_plans with
        | none => (false, db)
        | some sell_plan =>
          match env.placeOrder grid.trading_pair OrderSide.SELL "LIMIT"
              sell_plan.quantity sell_plan.price with
          | .error _ => (false, db)
          | .ok binance_order_id =>
            (true,
             { db with
                orders := db.orders ++
                  [{ id := db.nextOrderId
                     grid_id := buy.grid_id
                     grid_level := sell_plan.level_index
                     symbol := grid.trading_pair
                     side := OrderSide.SELL
                     price := sell_plan.price
                     quantity := sell_plan.quantity
                     filled_quantity := 0
                     status := OrderStatus.NEW
                     paired_order_id := some buy.id
                     binance_order_id := binance_order_id }]
                nextOrderId := db.nextOrderId + 1 })

/-- One iteration of the sweep loop: pair one BUY, bumping the created
counter when a SELL was created. -/
def sweepStep (env : BinanceEnv) (acc : ℕ × DB) (buy : OrderRow) : ℕ × DB :=
  let r := createPairedSellOrderSvc env acc.2 buy
  (acc.1 + (if r.1 then 1 else 0), r.2)

/-- Embeds `OrderPairingService.process_filled_buys_without_pair(grid_id)` ("sweep"):
pair every FILLED BUY of the grid that no SELL references, counting the
sells created. -/
def processFilledBuysWithoutPair (env : BinanceEnv) (db : DB) (grid_id : ℕ) : ℕ × DB :=
  let buy_orders := db.findFilledBuysWithoutPair grid_id
  buy_orders.foldl (sweepStep env) (0, db)

/-- How many orders reference the BUY order id `b` as `paired_order_id`. -/
def countRef (db : DB) (b : ℕ) : ℕ :=
  (db.orders.filter (fun o => o.paired_order_id = some b)).length

/-- One invocation of the Pairing Engine: `pair` on some order object, or a
`sweep` of a grid.  Each invocation carries the exchange responses it
observes. -/
inductive PairingCall where
  | pair (env : BinanceEnv) (buy : OrderRow)
  | sweep (env : BinanceEnv) (grid_id : ℕ)

/-- The database after one Pairing Engine invocation. -/
def runCall (db : DB) : PairingCall → DB
  | .pair env buy => (createPairedSellOrderSvc env db buy).2
  | .sweep env grid_id => (processFilledBuysWithoutPair env db grid_id).2

/-- The database after a sequence of Pairing Engine invocations. -/
def runCalls (db : DB) (calls : List PairingCall) : DB :=
  calls.foldl runCall db

/-! ## Grid lifecycle (`backend/services/grid_service.py`) -/

/-- Embeds `GridConfig` request model. -/
structure GridConfig where
  trading_pair : String
  upper_price : ℚ
  lower_price : ℚ
  grid_count : ℕ
  total_investment : ℚ
deriving DecidableEq, Repr

/-- The distinct failure exits of `GridService.start_grid`, by raised
exception and message. -/
inductive StartGridError where
  | conflict
  | symbolNotFound (pair : String)
  | priceOutOfRange (current : ℚ)
  | strategyInvalid (msg : String)
  | maxInvestmentExceeded
  | insufficientBalance (required available : ℚ) (asset : String)
  | engineFailed (msg : String)
  | placementFailed (level : ℤ)
deriving DecidableEq, Repr

/-- The sequential placement loop of `start_grid`: place each plan through the
exchange; the first failure aborts with that plan's level index, success
yields each plan with its acknowledged exchange order id. -/
def placePlans (env : BinanceEnv) (pair : String) :
    List OrderPlan → Except ℤ (List (OrderPlan × String))
  | [] => .ok []
  | plan :: rest =>
    match env.placeOrder pair plan.side "LIMIT" plan.quantity plan.price with
    | .error _ => .error plan.level_index
    | .ok binance_order_id =>
      match placePlans env pair rest with
      | .error lvl => .error lvl
      | .ok rows => .ok ((plan, binance_order_id) :: rows)

/-- The `Order` rows persisted by `start_grid` for acknowledged plans. -/
def buildOrderRows (firstId : ℕ) (grid_id : ℕ) (pair : String) :
    List (OrderPlan × String) → List OrderRow
  | [] => []
  | pr :: rest =>
    { id := firstId
      grid_id := grid_id
      grid_level := pr.1.level_index
      symbol := pair
      side := pr.1.side
      price := pr.1.price
      quantity := pr.1.quantity
      filled_quantity := 0
      status := OrderStatus.NEW
      paired_order_id := none
      binance_order_id := pr.2 } :: buildOrderRows (firstId + 1) grid_id pair rest

/-- The `GridStrategy` that `start_grid` constructs from the request and the
symbol's price precision. -/
def strategyOf (config : GridConfig) (price_precision : ℕ) : GridStrategy :=
  { trading_pair := config.trading_pair
    upper_price := config.upper_price
    lower_price := config.lower_price
    grid_count := config.grid_count
    total_investment := config.total_investment
    price_precision := price_precision }

/-- Embeds `PRICE_BUFFER_PERCENTAGE` of the risk-control band. -/
def priceBufferPercentage : ℚ := 1/2

/-- Embeds `MAX_INVESTMENT_USDT` risk cap. -/
def maxInvestmentUSDT : ℚ := 100000

/-- Embeds `GridService.start_grid(config)`.  Result: the count of persisted orders
(the source's third return component) or the raised error, together with the
committed database.  Every failure path either happens before any write or
runs `session.rollback()`, so it returns the input database; the single
`session.commit()` at the end persists grid, levels and orders together. -/
def startGrid (env : BinanceEnv) (db : DB) (config : GridConfig) :
    Except StartGridError ℕ × DB :=
  if (db.findActiveGrid).isSome then (.error .conflict, db)
  else
    match env.symbols.find? (fun s => s.symbol = config.trading_pair) with
    | none => (.error (.symbolNotFound config.trading_pair), db)
    | some symbol_info =>
      let current_price := env.getPrice config.trading_pair
      let acceptable_lower := config.lower_price * (1 - priceBufferPercentage)
      let acceptable_upper := config.upper_price * (1 + priceBufferPercentage)
      if 0 < current_price ∧
          (current_price < acceptable_lower ∨ acceptable_upper < current_price) then
        (.error (.priceOutOfRange current_price), db)
      else
        let gs := strategyOf config symbol_info.price_precision
        match gs.validate with
        | .error msg => (.error (.strategyInvalid msg), db)
        | .ok _ =>
          let calculation := gs.calculate
          let required_investment := config.total_investment
          if maxInvestmentUSDT < required_investment then
            (.error .maxInvestmentExceeded, db)
          else
            let available := lookupBalance env.balances "USDT"
            if available < required_investment then
              (.error (.insufficientBalance required_investment available "USDT"), db)
            else
              let grid_id := db.nextOrderId  -- fresh surrogate id for the new grid
              let grid : GridRow :=
                { id := grid_id
                  trading_pair := config.trading_pair
                  upper_price := config.upper_price
                  lower_price := config.lower_price
                  grid_count := config.grid_count
                  grid_spacing := calculation.grid_spacing
                  total_investment := config.total_investment
                  investment_per_grid := calculation.investment_per_grid
                  status := GridStatus.RUNNING }
              let level_rows : List GridLevelRow :=
                calculation.levels.map (fun l =>
                  { grid_id := grid_id, level_index := l.level_index, price := l.price })
              let om := plannerOf calculation.investment_per_grid symbol_info
              match om.generateOrders calculation.levels with
              | .error msg => (.error (.engineFailed msg), db)
              | .ok plans =>
                match placePlans env config.trading_pair plans with
                | .error lvl => (.error (.placementFailed lvl), db)
                | .ok placed =>
                  (.ok placed.length,
                   { db with
                      grids := db.grids ++ [grid]
                      levels := db.levels ++ level_rows
                      orders := db.orders ++
                        buildOrderRows db.nextOrderId grid_id config.trading_pair placed
                      nextOrderId := db.nextOrderId + placed.length + 1 })

/-! ## Stream monitor event handling (`backend/services/websocket_monitor_service.py`) -/

/-- The consumed fields of an `executionReport` event. -/
structure ExecEvent where
  symbol : String
  order_status : String
  execution_type : String
  binance_order_id : String
  filled_qty : ℚ
  commission : Option ℚ
  commission_asset : Option String
  is_maker : Bool
deriving DecidableEq, Repr

/-- The local status computed from the event's `X` field (the three processed
statuses). -/
def localStatus (s : String) : Option OrderStatus :=
  if s = "FILLED" then some OrderStatus.FILLED
  else if s = "PARTIALLY_FILLED" then some OrderStatus.PARTIALLY_FILLED
  else if s = "CANCELED" then some OrderStatus.CANCELLED
  else none

/-- Replace the row of an order id (ORM identity-map update then commit). -/
def DB.replaceOrder (db : DB) (oid : ℕ) (updated : OrderRow) : DB :=
  { db with orders := db.orders.map (fun o => if o.id = oid then updated else o) }

/-- Embeds `WebSocketMonitorService._handle_execution_report(data)`: returns the
committed database and whether the Pairing Engine was invoked.  The in-memory
assignment of `filled_quantity` before the status comparison is only ever
committed on the status-change branch; on every other path the session closes
without a commit, so the database is unchanged. -/
def handleExecutionReport (env : BinanceEnv) (db : DB) (ev : ExecEvent) : DB × Bool :=
  match localStatus ev.order_status with
  | none => (db, false)
  | some new_status =>
    match db.findByBinanceOrderId ev.binance_order_id with
    | none => (db, false)
    | some order =>
      match db.findGrid order.grid_id with
      | none => (db, false)
      | some grid =>
        if grid.status ≠ GridStatus.RUNNING then (db, false)
        else if order.status = new_status then (db, false)
        else
          let updated : OrderRow :=
            { order with
                status := new_status
                filled_quantity :=
                  if new_status = OrderStatus.CANCELLED then order.filled_quantity
                  else ev.filled_qty }
          let db1 := db.replaceOrder order.id updated
          if new_status = OrderStatus.FILLED ∧ order.status ≠ OrderStatus.FILLED then
            let trade : TradeRow :=
              { grid_id := order.grid_id
                order_id := order.id
                symbol := order.symbol
                side := if order.side = OrderSide.BUY then TradeSide.BUY else TradeSide.SELL
                price := order.price
                quantity := ev.filled_qty
                quote_quantity := order.price * ev.filled_qty
                commission := ev.commission
                commission_asset := ev.commission_asset
                is_maker := ev.is_maker }
            let db2 := { db1 with trades := db1.trades ++ [trade] }
            if order.side = OrderSide.BUY then
              ((createPairedSellOrderSvc env db2 updated).2, true)
            else (db2, false)
          else (db1, false)

/-! ## Stream monitor session lifecycle -/

/-- The monitor's session state: the running flag, whether a socket is open
and a listen key is held, plus counters of every `create_listen_key` call and
socket connection ever made (history observers for the reconnect claims). -/
structure MonitorState where
  running : Bool
  websocket : Bool
  listen_key : Option String
  tokensAcquired : ℕ
  socketsOpened : ℕ
deriving DecidableEq, Repr

/-- Embeds `WebSocketMonitorService._process_message` restricted to the session
state: a `listenKeyExpired` event clears the running flag; every other event
type leaves the session state alone (`executionReport` touches only the
database). -/
def processMessage (s : MonitorState) (event_type : String) : MonitorState :=
  if event_type = "executionReport" then s
  else if event_type = "listenKeyExpired" then { s with running := false }
  else s

/-- Embeds `WebSocketMonitorService._reconnect`: close the old socket, release the
old key, acquire a fresh key and open a fresh socket. -/
def reconnect (s : MonitorState) (new_key : String) : MonitorState :=
  { s with
      websocket := true
      listen_key := some new_key
      tokensAcquired := s.tokensAcquired + 1
      socketsOpened := s.socketsOpened + 1 }

/-- One iteration of `_monitor_with_reconnect` after `_monitor_loop` has
exited: reconnect only when the monitor is still meant to be running
(`if self.running:` guard; the `while self.running:` loop condition makes a
non-running state exit untouched). -/
def superviseStep (s : MonitorState) (new_key : String) : MonitorState :=
  if s.running then reconnect s new_key else s

/-- Embeds `WebSocketMonitorService.start`: a no-op when already running, otherwise
acquire a key, open the socket and set the running flag. -/
def monitorStart (s : MonitorState) (new_key : String) : MonitorState :=
  if s.running then s
  else { s with
           running := true
           websocket := true
           listen_key := some new_key
           tokensAcquired := s.tokensAcquired + 1
           socketsOpened := s.socketsOpened + 1 }

/-! ## Concrete instances used by witnesses and counterexamples -/

/-- An `OrderManager` with plain 8-decimal rules and no symbol filters. -/
def omPlain : OrderManager :=
  { investment_per_grid := 1, qty_precision := 8, price_precision := 8
    step_size := none, tick_size := none, min_qty := none }

/-- An `OrderManager` with integer (zero-decimal) precision and no filters. -/
def omCoarse : OrderManager :=
  { investment_per_grid := 1, qty_precision := 0, price_precision := 0
    step_size := none, tick_size := none, min_qty := none }

/-- An `OrderManager` with investment 200 per level and a
minimum quantity of 1/1000. -/
def omMin : OrderManager :=
  { investment_per_grid := 200, qty_precision := 8, price_precision := 8
    step_size := none, tick_size := none, min_qty := some (1/1000) }

/-- A valid `GridStrategy` input on which half-even level rounding collides:
range 1.5 to 6.5, five levels, zero price precision. -/
def gsTie : GridStrategy :=
  { trading_pair := "BTCUSDT", upper_price := 13/2, lower_price := 3/2
    grid_count := 5, total_investment := 1000, price_precision := 0 }

/-- A well-separated `GridStrategy` input: range 10 to 60, five levels. -/
def gsWide : GridStrategy :=
  { trading_pair := "BTCUSDT", upper_price := 60, lower_price := 10
    grid_count := 5, total_investment := 1000, price_precision := 0 }

/-- The grid-start request matching `gsWide`. -/
def cfgW : GridConfig :=
  { trading_pair := "BTCUSDT", upper_price := 60, lower_price := 10
    grid_count := 5, total_investment := 1000 }

/-- Symbol metadata with integer precision and no lot filters. -/
def siW : SymbolInfo :=
  { symbol := "BTCUSDT", qty_precision := 0, price_precision := 0
    step_size := none, tick_size := none, min_qty := none }

/-- An exchange that accepts every order. -/
def envOk : BinanceEnv :=
  { symbols := [siW], getPrice := fun _ => 30, balances := [{ asset := "USDT", free := 5000 }]
    placeOrder := fun _ _ _ _ _ => .ok "B1" }

/-- An exchange that rejects the order priced 20 and accepts the rest. -/
def envFail : BinanceEnv :=
  { symbols := [siW], getPrice := fun _ => 30, balances := [{ asset := "USDT", free := 5000 }]
    placeOrder := fun _ _ _ _ price => if price = 20 then .error "rejected" else .ok "B1" }

/-- An exchange with only 5 USDT free. -/
def envPoor : BinanceEnv :=
  { symbols := [siW], getPrice := fun _ => 30, balances := [{ asset := "USDT", free := 5 }]
    placeOrder := fun _ _ _ _ _ => .ok "B1" }

/-- An exchange whose ticker reports price 0 for every symbol. -/
def envZero : BinanceEnv :=
  { symbols := [siW], getPrice := fun _ => 0, balances := [{ asset := "USDT", free := 5000 }]
    placeOrder := fun _ _ _ _ _ => .ok "B1" }

/-- An empty database. -/
def dbEmpty : DB := { grids := [], levels := [], orders := [], trades := [], nextOrderId := 0 }

/-- A RUNNING grid row. -/
def gridRunning : GridRow :=
  { id := 1, trading_pair := "BTCUSDT", upper_price := 60, lower_price := 10
    grid_count := 5, grid_spacing := 10, total_investment := 1000
    investment_per_grid := 200, status := GridStatus.RUNNING }

/-- A database whose only grid is RUNNING. -/
def dbRunning : DB :=
  { grids := [gridRunning], levels := [], orders := [], trades := [], nextOrderId := 2 }

/-- A FILLED BUY order at level 1 of the running grid. -/
def buyW : OrderRow :=
  { id := 7, grid_id := 1, grid_level := 1, symbol := "BTCUSDT", side := OrderSide.BUY
    price := 10, quantity := 2, filled_quantity := 2, status := OrderStatus.FILLED
    paired_order_id := none, binance_order_id := "X7" }

/-- A database with the running grid, two levels and the filled BUY. -/
def dbPair : DB :=
  { grids := [gridRunning]
    levels := [{ grid_id := 1, level_index := 1, price := 10 },
               { grid_id := 1, level_index := 2, price := 20 }]
    orders := [buyW], trades := [], nextOrderId := 10 }

/-- A duplicate FILLED execution report for the already-FILLED BUY `buyW`. -/
def evDup : ExecEvent :=
  { symbol := "BTCUSDT", order_status := "FILLED", execution_type := "TRADE"
    binance_order_id := "X7", filled_qty := 2, commission := none
    commission_asset := none, is_maker := true }

/-! ## Rounding lemmas -/

theorem truncInt_of_nonneg {x : ℚ} (hx : 0 ≤ x) : truncInt x = ⌊x⌋ := if_pos hx

theorem truncInt_mul_le {s x : ℚ} (hs : 0 < s) (hx : 0 ≤ x) :
    (truncInt (x / s) : ℚ) * s ≤ x := by
  rw [truncInt_of_nonneg (div_nonneg hx hs.le)]
  calc (⌊x / s⌋ : ℚ) * s ≤ (x / s) * s := by
        exact mul_le_mul_of_nonneg_right (Int.floor_le _) hs.le
    _ = x := div_mul_cancel₀ x hs.ne'

theorem truncInt_mul_nonneg {s x : ℚ} (hs : 0 < s) (hx : 0 ≤ x) :
    0 ≤ (truncInt (x / s) : ℚ) * s := by
  rw [truncInt_of_nonneg (div_nonneg hx hs.le)]
  have h0 : (0 : ℚ) ≤ (⌊x / s⌋ : ℚ) := by
    exact_mod_cast Int.floor_nonneg.mpr (div_nonneg hx hs.le)
  exact mul_nonneg h0 hs.le

theorem quantDown_le {e : ℤ} {x : ℚ} (hx : 0 ≤ x) : quantDown e x ≤ x :=
  truncInt_mul_le (zpow_pos (by norm_num) e) hx

theorem quantDown_nonneg {e : ℤ} {x : ℚ} (hx : 0 ≤ x) : 0 ≤ quantDown e x :=
  truncInt_mul_nonneg (zpow_pos (by norm_num) e) hx

theorem le_halfEvenInt (x : ℚ) : x - 1/2 ≤ (halfEvenInt x : ℚ) := by
  unfold halfEvenInt
  have h2 : x < (⌊x⌋ : ℚ) + 1 := Int.lt_floor_add_one x
  split
  · rename_i h
    push_cast
    linarith
  · rename_i h
    rw [not_lt] at h
    split
    · push_cast
      linarith
    · rename_i h3
      rw [not_lt] at h3
      split <;> push_cast <;> linarith

theorem halfEvenInt_le (x : ℚ) : (halfEvenInt x : ℚ) ≤ x + 1/2 := by
  unfold halfEvenInt
  have h1 : (⌊x⌋ : ℚ) ≤ x := Int.floor_le x
  split
  · push_cast
    linarith
  · rename_i h
    rw [not_lt] at h
    split
    · push_cast
      linarith
    · split <;> push_cast <;> linarith

theorem quantHalfEven_sub_eq (p : ℕ) (x : ℚ) :
    quantHalfEven p x - x = ((halfEvenInt (x * 10 ^ p) : ℚ) - x * 10 ^ p) / 10 ^ p := by
  have hp : (10 : ℚ) ^ p ≠ 0 := by positivity
  field_simp [quantHalfEven]
  ring

theorem quantHalfEven_abs_sub (p : ℕ) (x : ℚ) :
    |quantHalfEven p x - x| ≤ 1 / (2 * 10 ^ p) := by
  have hp : (0 : ℚ) < 10 ^ p := by positivity
  have hlo := le_halfEvenInt (x * 10 ^ p)
  have hhi := halfEvenInt_le (x * 10 ^ p)
  rw [quantHalfEven_sub_eq, abs_div, abs_of_pos hp, div_le_div_iff₀ hp (by positivity)]
  have habs : |(halfEvenInt (x * 10 ^ p) : ℚ) - x * 10 ^ p| ≤ 1 / 2 := by
    rw [abs_le]
    constructor <;> linarith
  nlinarith

/-! ## Stream monitor lemmas -/

theorem superviseStep_of_not_running {s : MonitorState} (h : s.running = false)
    (k : String) : superviseStep s k = s := by
  unfold superviseStep
  rw [h]
  simp

theorem foldl_superviseStep_of_not_running {s : MonitorState} (h : s.running = false)
    (keys : List String) : keys.foldl superviseStep s = s := by
  induction keys with
  | nil => rfl
  | cons k ks ih => rw [List.foldl_cons, superviseStep_of_not_running h, ih]

/-- C9: a `listenKeyExpired` event clears the running flag, and afterwards any
number of supervisor iterations neither acquires a listen key nor opens a
socket — the state is frozen until an external `start()`. -/
theorem c9_session_expiry_is_terminal (s : MonitorState) (keys : List String) :
    (processMessage s "listenKeyExpired").running = false ∧
    keys.foldl superviseStep (processMessage s "listenKeyExpired") =
      processMessage s "listenKeyExpired" ∧
    (keys.foldl superviseStep (processMessage s "listenKeyExpired")).tokensAcquired =
      s.tokensAcquired ∧
    (keys.foldl superviseStep (processMessage s "listenKeyExpired")).socketsOpened =
      s.socketsOpened := by
  have hrun : (processMessage s "listenKeyExpired").running = false := by
    simp [processMessage]
  have hfold := foldl_superviseStep_of_not_running hrun keys
  refine ⟨hrun, hfold, ?_, ?_⟩ <;> rw [hfold] <;> simp [processMessage]

/-! ## Order planner lemmas -/

theorem quantizeQuantity_ok (om : OrderManager) {x q : ℚ}
    (h : om.quantizeQuantity x = .ok q) :
    0 < q ∧
    q = quantDown (-(om.qty_precision : ℤ))
      (match om.step_size with
       | some step => if 0 < step then (truncInt (x / step) : ℚ) * step else x
       | none => x) := by
  simp only [OrderManager.quantizeQuantity] at h
  split at h
  · cases h
  · rename_i hpos
    cases h
    exact ⟨by linarith [not_le.mp hpos], rfl⟩

/-- C6: whenever the quantity computation returns (rather than raising), the
result is the step-and-precision floor of `investment / price`, is strictly
positive, and is at least any configured minimum quantity; a violating input
raises instead of being clamped. -/
theorem c6_quantity_never_below_min (om : OrderManager) (price q : ℚ)
    (h : om.calculateQuantity price = .ok q) :
    om.quantizeQuantity (om.investment_per_grid / price) = .ok q ∧
    0 < q ∧ ∀ m, om.min_qty = some m → m ≤ q := by
  unfold OrderManager.calculateQuantity at h
  by_cases hp : price = 0
  · rw [if_pos hp] at h
    cases h
  · rw [if_neg hp] at h
    rcases hq : om.quantizeQuantity (om.investment_per_grid / price) with e | q0 <;>
      rw [hq] at h <;> dsimp only at h
    · cases h
    · have hq0 : 0 < q0 := (quantizeQuantity_ok om hq).1
      rcases hm : om.min_qty with _ | m <;> rw [hm] at h <;> dsimp only at h
      · injection h with hqq
        subst hqq
        exact ⟨rfl, hq0, by simp⟩
      · by_cases hcond : 0 < m ∧ q0 < m
        · rw [if_pos hcond] at h
          cases h
        · rw [if_neg hcond] at h
          injection h with hqq
          subst hqq
          refine ⟨rfl, hq0, ?_⟩
          intro m2 hm2
          injection hm2 with hm2
          subst hm2
          rcases lt_or_le 0 m with h0 | h0
          · by_contra hlt
            exact hcond ⟨h0, lt_of_not_le hlt⟩
          · linarith

/-- Witness for C6 at a concrete planner: investment 200 per level, price
40000, minimum quantity 1/1000; the computed quantity 1/200 is positive and
above the minimum. -/
theorem c6_witness :
    omMin.quantizeQuantity (omMin.investment_per_grid / 40000) = .ok (1/200) ∧
    (0 : ℚ) < 1/200 ∧ ∀ m, omMin.min_qty = some m → m ≤ 1/200 :=
  c6_quantity_never_below_min omMin 40000 (1/200) (by
    norm_num [omMin, OrderManager.calculateQuantity, OrderManager.quantizeQuantity,
      quantDown, truncInt])

theorem find?_sorted_min {b : ℤ} {levels : List GridLevelPlan} {next : GridLevelPlan}
    (hs : List.Pairwise (fun a c => a.level_index < c.level_index) levels)
    (hf : levels.find? (fun lvl => b < lvl.level_index) = some next) :
    ∀ m ∈ levels, b < m.level_index → next.level_index ≤ m.level_index := by
  induction levels with
  | nil => cases hf
  | cons hd tl ih =>
    rcases List.pairwise_cons.mp hs with ⟨hall, htail⟩
    by_cases ph : b < hd.level_index
    · rw [List.find?_cons_of_pos _ (by simpa using ph)] at hf
      injection hf with hf
      subst hf
      intro m hm hbm
      rcases List.mem_cons.mp hm with rfl | hm2
      · exact le_refl _
      · exact (hall m hm2).le
    · rw [List.find?_cons_of_neg _ (by simpa using ph)] at hf
      intro m hm hbm
      rcases List.mem_cons.mp hm with rfl | hm2
      · exact absurd hbm ph
      · exact ih htail hf m hm2 hbm

/-- C2 (amended): on a level list sorted ascending by `level_index` (the order
in which both the Grid Strategy produces levels and the level repository
returns them), `create_paired_sell_order` returns the SELL plan at the level
with the smallest index strictly above the buy's level, at that level's
quantized price, with the buy quantity carried unchanged; it returns `none`
exactly when no strictly higher level exists.  On an arbitrary list the
source picks the first matching element in list order instead. -/
theorem c2_paired_sell_at_next_level (om : OrderManager) (b : ℤ) (bp bq : ℚ)
    (levels : List GridLevelPlan)
    (hs : List.Pairwise (fun a c => a.level_index < c.level_index) levels) :
    (om.createPairedSellOrder b bp bq levels = none ↔
      ∀ l ∈ levels, l.level_index ≤ b) ∧
    (∀ plan, om.createPairedSellOrder b bp bq levels = some plan →
      plan.side = OrderSide.SELL ∧ plan.quantity = bq ∧
      ∃ l ∈ levels, b < l.level_index ∧ plan.level_index = l.level_index ∧
        plan.price = om.quantizePrice l.price ∧
        ∀ l2 ∈ levels, b < l2.level_index → l.level_index ≤ l2.level_index) := by
  unfold OrderManager.createPairedSellOrder
  rcases hf : levels.find? (fun lvl => b < lvl.level_index) with _ | next <;>
    rw [hf] <;> dsimp only
  · constructor
    · refine ⟨fun _ l hl => ?_, fun _ => rfl⟩
      have := List.find?_eq_none.mp hf l hl
      simpa using this
    · intro plan hp
      cases hp
  · have hmem : next ∈ levels := List.mem_of_find?_eq_some hf
    have hb : b < next.level_index := by simpa using List.find?_some hf
    constructor
    · constructor
      · intro hnone
        cases hnone
      · intro hall
        exact absurd hb (not_lt.mpr (hall next hmem))
    · intro plan hp
      injection hp with hp
      subst hp
      exact ⟨rfl, rfl, next, hmem, hb, rfl, rfl, find?_sorted_min hs hf⟩

/-- Witness for C2 at a concrete sorted two-level grid with the buy at
level 1. -/
theorem c2_witness :
    (omPlain.createPairedSellOrder 1 1 1
        [{ level_index := 1, price := 10 }, { level_index := 2, price := 20 }] = none ↔
      ∀ l ∈ [({ level_index := 1, price := 10 } : GridLevelPlan),
             { level_index := 2, price := 20 }], l.level_index ≤ 1) ∧
    (∀ plan, omPlain.createPairedSellOrder 1 1 1
        [{ level_index := 1, price := 10 }, { level_index := 2, price := 20 }] = some plan →
      plan.side = OrderSide.SELL ∧ plan.quantity = 1 ∧
      ∃ l ∈ [({ level_index := 1, price := 10 } : GridLevelPlan),
             { level_index := 2, price := 20 }],
        (1 : ℤ) < l.level_index ∧ plan.level_index = l.level_index ∧
        plan.price = omPlain.quantizePrice l.price ∧
        ∀ l2 ∈ [({ level_index := 1, price := 10 } : GridLevelPlan),
                { level_index := 2, price := 20 }],
          (1 : ℤ) < l2.level_index → l.level_index ≤ l2.level_index) :=
  c2_paired_sell_at_next_level omPlain 1 1 1
    [{ level_index := 1, price := 10 }, { level_index := 2, price := 20 }]
    (by simp [List.pairwise_cons])

/-- C2 (counterexample): the source takes the first level in list order whose
index exceeds the buy's, not the smallest such index — on the unsorted list
`[index 3, index 2]` with the buy at level 1 it returns the level-3 sell even
though level 2 also strictly exceeds 1 and is smaller. -/
theorem c2_counterexample :
    (omPlain.createPairedSellOrder 1 1 1
        [{ level_index := 3, price := 10 }, { level_index := 2, price := 5 }]).map
      OrderPlan.level_index = some 3 ∧
    ({ level_index := 2, price := 5 } : GridLevelPlan) ∈
      [({ level_index := 3, price := 10 } : GridLevelPlan),
       { level_index := 2, price := 5 }] ∧
    (1 : ℤ) < 2 ∧ (2 : ℤ) < 3 := by
  refine ⟨?_, by simp, by norm_num, by norm_num⟩
  simp [OrderManager.createPairedSellOrder, List.find?]

/-- C8 (amended): the Order Planner's price and quantity quantization round
down (the quantized value never exceeds a nonnegative raw value), while the
Grid Strategy's level-price rounding is round-half-to-even: it can exceed the
raw value, but by at most half of one price-precision unit. -/
theorem c8_planner_floors (om : OrderManager) (p : ℕ) (x : ℚ) (hx : 0 ≤ x) :
    om.quantizePrice x ≤ x ∧
    (∀ q, om.quantizeQuantity x = .ok q → q ≤ x) ∧
    |quantHalfEven p x - x| ≤ 1 / (2 * 10 ^ p) := by
  refine ⟨?_, ?_, quantHalfEven_abs_sub p x⟩
  · unfold OrderManager.quantizePrice
    rcases om.tick_size with _ | t <;> dsimp only
    · exact quantDown_le hx
    · by_cases ht : 0 < t.val
      · rw [if_pos ht]
        exact quantDown_le hx
      · rw [if_neg ht]
        exact quantDown_le hx
  · intro q hq
    have hdef := (quantizeQuantity_ok om hq).2
    rcases hs : om.step_size with _ | step <;> rw [hs] at hdef <;> dsimp only at hdef
    · subst hdef
      exact quantDown_le hx
    · by_cases hstep : 0 < step
      · rw [if_pos hstep] at hdef
        subst hdef
        exact le_trans (quantDown_le (truncInt_mul_nonneg hstep hx))
          (truncInt_mul_le hstep hx)
      · rw [if_neg hstep] at hdef
        subst hdef
        exact quantDown_le hx

/-- Witness for C8 at the raw value 3/2 with integer precision: the planner
quantizations stay at or below 3/2, the strategy rounding lands within half a
unit. -/
theorem c8_witness :
    omCoarse.quantizePrice (3/2) ≤ 3/2 ∧
    (∀ q, omCoarse.quantizeQuantity (3/2) = .ok q → q ≤ 3/2) ∧
    |quantHalfEven 0 (3/2) - 3/2| ≤ 1 / (2 * 10 ^ (0 : ℕ)) :=
  c8_planner_floors omCoarse 0 (3/2) (by norm_num)

/-- C8 (counterexample): the Grid Strategy's level rounding is not a floor:
on the valid input `gsTie` (lower price 1.5, precision 0) the first level's
raw price is the lower bound 3/2, yet the stored price is 2 > 3/2. -/
theorem c8_counterexample :
    gsTie.validate = .ok () ∧
    (gsTie.calculate.levels.map GridLevelPlan.price).head? = some 2 ∧
    gsTie.lower_price +
        (gsTie.upper_price - gsTie.lower_price) / (gsTie.grid_count : ℚ) * 0 = 3/2 ∧
    (3/2 : ℚ) < 2 := by
  refine ⟨?_, ?_, by norm_num [gsTie], by norm_num⟩
  · norm_num [GridStrategy.validate, gsTie, GridStrategy.MIN_GRID_COUNT,
      GridStrategy.MAX_GRID_COUNT]
  · have hr : List.range 6 = [0, 1, 2, 3, 4, 5] := by decide
    norm_num [GridStrategy.calculate, gsTie, hr, quantHalfEven, halfEvenInt]

/-! ## Grid strategy lemmas -/

theorem validate_ok {gs : GridStrategy} (h : gs.validate = .ok ()) :
    gs.lower_price < gs.upper_price ∧ 5 ≤ gs.grid_count ∧ gs.grid_count ≤ 100 ∧
    0 < gs.total_investment := by
  unfold GridStrategy.validate at h
  by_cases h1 : gs.upper_price ≤ gs.lower_price
  · rw [if_pos h1] at h
    cases h
  · rw [if_neg h1] at h
    by_cases h2 : ¬ (GridStrategy.MIN_GRID_COUNT ≤ gs.grid_count ∧
        gs.grid_count ≤ GridStrategy.MAX_GRID_COUNT)
    · rw [if_pos h2] at h
      cases h
    · rw [if_neg h2] at h
      by_cases h3 : gs.total_investment ≤ 0
      · rw [if_pos h3] at h
        cases h
      · rcases not_not.mp h2 with ⟨h2a, h2b⟩
        exact ⟨lt_of_not_le h1, h2a, h2b, lt_of_not_le h3⟩

theorem calculate_levels_eq (gs : GridStrategy) :
    gs.calculate.levels = (List.range (gs.grid_count + 1)).map (fun (index : ℕ) =>
      ({ level_index := (index : ℤ) + 1
         price := quantHalfEven gs.price_precision
           (gs.lower_price +
            (gs.upper_price - gs.lower_price) / (gs.grid_count : ℚ) * (index : ℚ)) } :
        GridLevelPlan)) := by
  dsimp only [GridStrategy.calculate]

theorem calculate_levels_get {gs : GridStrategy} {i : ℕ} {li : GridLevelPlan}
    (hget : gs.calculate.levels[i]? = some li) :
    i < gs.grid_count + 1 ∧ li.level_index = (i : ℤ) + 1 ∧
    li.price = quantHalfEven gs.price_precision
      (gs.lower_price +
       (gs.upper_price - gs.lower_price) / (gs.grid_count : ℚ) * (i : ℚ)) := by
  rw [calculate_levels_eq, List.getElem?_map] at hget
  have hlen : i < gs.grid_count + 1 := by
    by_contra hge
    rw [List.getElem?_eq_none (by simpa using not_lt.mp hge)] at hget
    cases hget
  rw [List.getElem?_range hlen] at hget
  injection hget with hget
  subst hget
  exact ⟨hlen, rfl, rfl⟩

theorem half_unit_le_unit {t : ℚ} (ht : 0 < t) : 1 / (2 * t) ≤ 1 / t := by
  rw [div_le_div_iff₀ (by positivity) ht]
  nlinarith

/-- C3 (amended): for every valid input the strategy returns exactly
`grid_count + 1` levels, level `i` (0-based) carries `level_index = i + 1`
and the price `lower + spacing * i` rounded (half-even) to the price
precision, the first and last prices are within one price-precision unit of
the bounds, and the prices are strictly increasing provided the spacing
exceeds one price-precision unit; with a smaller spacing, adjacent rounded
prices can coincide, so strictness holds only under that proviso. -/
theorem c3_strategy_levels (gs : GridStrategy) (h : gs.validate = .ok ()) :
    gs.calculate.levels.length = gs.grid_count + 1 ∧
    (∀ (i : ℕ) (li : GridLevelPlan), gs.calculate.levels[i]? = some li →
      li.level_index = (i : ℤ) + 1 ∧
      li.price = quantHalfEven gs.price_precision
        (gs.lower_price +
         (gs.upper_price - gs.lower_price) / (gs.grid_count : ℚ) * (i : ℚ))) ∧
    ((1 : ℚ) / 10 ^ gs.price_precision <
        (gs.upper_price - gs.lower_price) / (gs.grid_count : ℚ) →
      ∀ (i j : ℕ) (li lj : GridLevelPlan), i < j →
        gs.calculate.levels[i]? = some li →
        gs.calculate.levels[j]? = some lj →
        li.price < lj.price) ∧
    (∀ l0 : GridLevelPlan, gs.calculate.levels[0]? = some l0 →
      |l0.price - gs.lower_price| ≤ 1 / 10 ^ gs.price_precision) ∧
    (∀ ln : GridLevelPlan, gs.calculate.levels[gs.grid_count]? = some ln →
      |ln.price - gs.upper_price| ≤ 1 / 10 ^ gs.price_precision) := by
  obtain ⟨hlt, hc5, _, _⟩ := validate_ok h
  have hc0 : (0 : ℚ) < (gs.grid_count : ℚ) := by
    have : 0 < gs.grid_count := by omega
    exact_mod_cast this
  have ht0 : (0 : ℚ) < 10 ^ gs.price_precision := by positivity
  refine ⟨?_, ?_, ?_, ?_, ?_⟩
  · rw [calculate_levels_eq, List.length_map, List.length_range]
  · intro i li hget
    exact (calculate_levels_get hget).2
  · intro hsp i j li lj hij hgi hgj
    obtain ⟨_, _, hpi⟩ := calculate_levels_get hgi
    obtain ⟨_, _, hpj⟩ := calculate_levels_get hgj
    rw [hpi, hpj]
    have hs0 : 0 < (gs.upper_price - gs.lower_price) / (gs.grid_count : ℚ) :=
      lt_trans (by positivity) hsp
    have hji : (i : ℚ) + 1 ≤ (j : ℚ) := by exact_mod_cast Nat.succ_le_of_lt hij
    have hgap : (gs.upper_price - gs.lower_price) / (gs.grid_count : ℚ) ≤
        (gs.lower_price +
          (gs.upper_price - gs.lower_price) / (gs.grid_count : ℚ) * (j : ℚ)) -
        (gs.lower_price +
          (gs.upper_price - gs.lower_price) / (gs.grid_count : ℚ) * (i : ℚ)) := by
      have := mul_le_mul_of_nonneg_left (by linarith : (1 : ℚ) ≤ (j : ℚ) - (i : ℚ)) hs0.le
      nlinarith
    have hbi := abs_le.mp (quantHalfEven_abs_sub gs.price_precision
      (gs.lower_price + (gs.upper_price - gs.lower_price) / (gs.grid_count : ℚ) * (i : ℚ)))
    have hbj := abs_le.mp (quantHalfEven_abs_sub gs.price_precision
      (gs.lower_price + (gs.upper_price - gs.lower_price) / (gs.grid_count : ℚ) * (j : ℚ)))
    have hsum : 1 / (2 * (10 : ℚ) ^ gs.price_precision) +
        1 / (2 * (10 : ℚ) ^ gs.price_precision) = 1 / (10 : ℚ) ^ gs.price_precision := by
      have hne : ((10 : ℚ) ^ gs.price_precision) ≠ 0 := ne_of_gt ht0
      field_simp
      ring
    obtain ⟨hbi1, hbi2⟩ := hbi
    obtain ⟨hbj1, hbj2⟩ := hbj
    linarith
  · intro l0 hg0
    obtain ⟨_, _, hp0⟩ := calculate_levels_get hg0
    rw [hp0]
    have hx0 : gs.lower_price +
        (gs.upper_price - gs.lower_price) / (gs.grid_count : ℚ) * ((0 : ℕ) : ℚ) =
        gs.lower_price := by
      push_cast
      ring
    rw [hx0]
    exact le_trans (quantHalfEven_abs_sub _ _) (half_unit_le_unit ht0)
  · intro ln hgn
    obtain ⟨_, _, hpn⟩ := calculate_levels_get hgn
    rw [hpn]
    have hxn : gs.lower_price +
        (gs.upper_price - gs.lower_price) / (gs.grid_count : ℚ) * ((gs.grid_count : ℕ) : ℚ) =
        gs.upper_price := by
      field_simp
    rw [hxn]
    exact le_trans (quantHalfEven_abs_sub _ _) (half_unit_le_unit ht0)

/-- Witness for C3 on the valid concrete grid 10..60 with five levels. -/
theorem c3_witness :
    gsWide.calculate.levels.length = gsWide.grid_count + 1 :=
  (c3_strategy_levels gsWide (by
    norm_num [GridStrategy.validate, gsWide, GridStrategy.MIN_GRID_COUNT,
      GridStrategy.MAX_GRID_COUNT])).1

/-- C3 (counterexample): on the valid input `gsTie` (range 1.5 to 6.5, five
levels, precision 0) the quantized level prices are 2, 2, 4, 4, 6, 6 — not
strictly increasing, refuting the unconditional strict-increase clause. -/
theorem c3_counterexample :
    gsTie.validate = .ok () ∧
    gsTie.calculate.levels.map GridLevelPlan.price = [2, 2, 4, 4, 6, 6] ∧
    ¬ List.Chain' (fun a b : ℚ => a < b) (gsTie.calculate.levels.map GridLevelPlan.price) := by
  have hval : gsTie.validate = .ok () := by
    norm_num [GridStrategy.validate, gsTie, GridStrategy.MIN_GRID_COUNT,
      GridStrategy.MAX_GRID_COUNT]
  have hr : List.range 6 = [0, 1, 2, 3, 4, 5] := by decide
  have hmap : gsTie.calculate.levels.map GridLevelPlan.price = [2, 2, 4, 4, 6, 6] := by
    norm_num [GridStrategy.calculate, gsTie, hr, quantHalfEven, halfEvenInt]
  refine ⟨hval, hmap, ?_⟩
  rw [hmap]
  simp only [List.chain'_cons, List.chain'_singleton]
  norm_num

/-! ## Pairing engine invariant lemmas -/

theorem pairSvc_countRef (env : BinanceEnv) (db : DB) (buy : OrderRow) (b : ℕ) :
    countRef (createPairedSellOrderSvc env db buy).2 b ≤ max (countRef db b) 1 ∧
    (1 ≤ countRef db b →
      countRef (createPairedSellOrderSvc env db buy).2 b = countRef db b) := by
  unfold createPairedSellOrderSvc
  by_cases h1 : buy.side ≠ OrderSide.BUY
  · rw [if_pos h1]
    exact ⟨le_max_left _ _, fun _ => rfl⟩
  · rw [if_neg h1]
    by_cases h2 : buy.status ≠ OrderStatus.FILLED
    · rw [if_pos h2]
      exact ⟨le_max_left _ _, fun _ => rfl⟩
    · rw [if_neg h2]
      by_cases h3 : (db.orders.find? (fun o => o.paired_order_id = some buy.id)).isSome
      · rw [if_pos h3]
        exact ⟨le_max_left _ _, fun _ => rfl⟩
      · rw [if_neg h3]
        rcases h4 : db.findGrid buy.grid_id with _ | grid <;> (try rw [h4]) <;>
          (try dsimp only)
        · exact ⟨le_max_left _ _, fun _ => rfl⟩
        · rcases h5 : env.symbols.find? (fun s => s.symbol = grid.trading_pair) with _ | si <;>
            rw [h5] <;> dsimp only
          · exact ⟨le_max_left _ _, fun _ => rfl⟩
          · rcases h6 : (plannerOf grid.investment_per_grid si).createPairedSellOrder
                buy.grid_level buy.price buy.filled_quantity
                ((db.levelsByGridId buy.grid_id).map
                  (fun l => { level_index := l.level_index, price := l.price })) with _ | plan <;>
              (try rw [h6]) <;> (try dsimp only)
            · exact ⟨le_max_left _ _, fun _ => rfl⟩
            · rcases h7 : env.placeOrder grid.trading_pair OrderSide.SELL "LIMIT"
                  plan.quantity plan.price with e | bid <;> (try rw [h7]) <;>
                (try dsimp only)
              · exact ⟨le_max_left _ _, fun _ => rfl⟩
              · have hnone : db.orders.find?
                    (fun o => o.paired_order_id = some buy.id) = none :=
                  Option.not_isSome_iff_eq_none.mp h3
                have hfilter : ∀ o ∈ db.orders, ¬ (o.paired_order_id = some buy.id) := by
                  intro o ho
                  simpa using List.find?_eq_none.mp hnone o ho
                by_cases hb : buy.id = b
                · subst hb
                  have hzero : countRef db buy.id = 0 := by
                    unfold countRef
                    rw [List.filter_eq_nil_iff.mpr]
                    · rfl
                    · intro o ho
                      simpa using hfilter o ho
                  constructor
                  · unfold countRef at hzero ⊢
                    rw [List.filter_append, List.length_append, hzero]
                    simp
                  · intro hge
                    rw [hzero] at hge
                    omega
                · have hnew : countRef
                      { db with
                          orders := db.orders ++
                            [{ id := db.nextOrderId, grid_id := buy.grid_id
                               grid_level := plan.level_index, symbol := grid.trading_pair
                               side := OrderSide.SELL, price := plan.price
                               quantity := plan.quantity, filled_quantity := 0
                               status := OrderStatus.NEW, paired_order_id := some buy.id
                               binance_order_id := bid }]
                          nextOrderId := db.nextOrderId + 1 } b = countRef db b := by
                    unfold countRef
                    rw [List.filter_append, List.length_append]
                    simp [List.filter, hb]
                  rw [hnew]
                  exact ⟨le_max_left _ _, fun _ => rfl⟩

theorem sweepFold_countRef (env : BinanceEnv) (b : ℕ) :
    ∀ (buys : List OrderRow) (acc : ℕ × DB),
    countRef (buys.foldl (sweepStep env) acc).2 b ≤ max (countRef acc.2 b) 1 ∧
    (1 ≤ countRef acc.2 b →
      countRef (buys.foldl (sweepStep env) acc).2 b = countRef acc.2 b) := by
  intro buys
  induction buys with
  | nil => exact fun acc => ⟨le_max_left _ _, fun _ => rfl⟩
  | cons buy rest ih =>
    intro acc
    rw [List.foldl_cons]
    obtain ⟨hle, heq⟩ := pairSvc_countRef env acc.2 buy b
    obtain ⟨ihle, iheq⟩ := ih (sweepStep env acc buy)
    have hstep : (sweepStep env acc buy).2 = (createPairedSellOrderSvc env acc.2 buy).2 := rfl
    constructor
    · refine le_trans ihle ?_
      rw [hstep]
      exact max_le (le_trans hle (le_refl _)) (le_max_right _ _)
    · intro hge
      have h1 : countRef (sweepStep env acc buy).2 b = countRef acc.2 b := by
        rw [hstep]
        exact heq hge
      rw [iheq (by rw [h1]; exact hge), h1]

theorem runCall_countRef (db : DB) (c : PairingCall) (b : ℕ) :
    countRef (runCall db c) b ≤ max (countRef db b) 1 ∧
    (1 ≤ countRef db b → countRef (runCall db c) b = countRef db b) := by
  cases c with
  | pair env buy => exact pairSvc_countRef env db buy b
  | sweep env grid_id =>
    unfold runCall processFilledBuysWithoutPair
    exact sweepFold_countRef env b (db.findFilledBuysWithoutPair grid_id) (0, db)

/-- C1: across any sequence of Pairing Engine invocations — `pair` on
arbitrary order objects and `sweep` of arbitrary grids, under arbitrary
exchange responses — a BUY id referenced by at most one order keeps at most
one referencing SELL forever; and once a referencing order exists (whatever
its status, including FILLED or CANCELLED), no invocation ever creates
another order referencing that BUY. -/
theorem c1_at_most_one_paired_sell (db : DB) (b : ℕ) (calls : List PairingCall)
    (h : countRef db b ≤ 1) :
    countRef (runCalls db calls) b ≤ 1 ∧
    (1 ≤ countRef db b → countRef (runCalls db calls) b = countRef db b) := by
  induction calls generalizing db with
  | nil => exact ⟨h, fun _ => rfl⟩
  | cons c cs ih =>
    have hfold : runCalls db (c :: cs) = runCalls (runCall db c) cs := by
      unfold runCalls
      rw [List.foldl_cons]
    obtain ⟨hle, heq⟩ := runCall_countRef db c b
    have hle1 : countRef (runCall db c) b ≤ 1 := le_trans hle (max_le h (le_refl 1))
    obtain ⟨ih1, ih2⟩ := ih (runCall db c) hle1
    rw [hfold]
    refine ⟨ih1, fun hge => ?_⟩
    have h1 : countRef (runCall db c) b = countRef db b := heq hge
    rw [ih2 (by rw [h1]; exact hge), h1]

/-- Witness for C1: pairing the same FILLED BUY twice on a concrete database
leaves at most one referencing SELL. -/
theorem c1_witness :
    countRef (runCalls dbPair
      [PairingCall.pair envOk buyW, PairingCall.pair envOk buyW]) 7 ≤ 1 ∧
    (1 ≤ countRef dbPair 7 →
      countRef (runCalls dbPair
        [PairingCall.pair envOk buyW, PairingCall.pair envOk buyW]) 7 = countRef dbPair 7) :=
  c1_at_most_one_paired_sell dbPair 7
    [PairingCall.pair envOk buyW, PairingCall.pair envOk buyW]
    (by simp [countRef, dbPair, buyW, List.filter])

/-! ## Stream monitor event-handling lemmas -/

theorem find?_append_some {p : OrderRow → Bool} {l1 l2 : List OrderRow} {o : OrderRow}
    (h : l1.find? p = some o) : (l1 ++ l2).find? p = some o := by
  rw [List.find?_append, h]
  rfl

theorem find?_map_replace {l : List OrderRow} {s : String} {order updated : OrderRow}
    (hf : l.find? (fun o => o.binance_order_id = s) = some order)
    (hbin : updated.binance_order_id = order.binance_order_id) :
    (l.map (fun o => if o.id = order.id then updated else o)).find?
      (fun o => o.binance_order_id = s) = some updated := by
  induction l with
  | nil => cases hf
  | cons hd tl ih =>
    by_cases ph : hd.binance_order_id = s
    · rw [List.find?_cons_of_pos _ (by simpa using ph)] at hf
      injection hf with hf
      subst hf
      rw [List.map_cons, if_pos rfl]
      apply List.find?_cons_of_pos
      simp only [hbin]
      simpa using ph
    · rw [List.find?_cons_of_neg _ (by simpa using ph)] at hf
      have horder : order.binance_order_id = s := by
        simpa using List.find?_some hf
      rw [List.map_cons]
      by_cases pid : hd.id = order.id
      · rw [if_pos pid]
        apply List.find?_cons_of_pos
        simp [hbin, horder]
      · rw [if_neg pid]
        rw [List.find?_cons_of_neg _ (by simpa using ph)]
        exact ih hf

/-- Every path of the pairing service either keeps the database or appends
one SELL row. -/
theorem pairSvc_shape (env : BinanceEnv) (db : DB) (buy : OrderRow) :
    (createPairedSellOrderSvc env db buy).2 = db ∨
    ∃ row : OrderRow, (createPairedSellOrderSvc env db buy).2 =
      { db with orders := db.orders ++ [row], nextOrderId := db.nextOrderId + 1 } := by
  unfold createPairedSellOrderSvc
  by_cases h1 : buy.side ≠ OrderSide.BUY
  · rw [if_pos h1]
    exact Or.inl rfl
  · rw [if_neg h1]
    by_cases h2 : buy.status ≠ OrderStatus.FILLED
    · rw [if_pos h2]
      exact Or.inl rfl
    · rw [if_neg h2]
      by_cases h3 : (db.orders.find? (fun o => o.paired_order_id = some buy.id)).isSome
      · rw [if_pos h3]
        exact Or.inl rfl
      · rw [if_neg h3]
        rcases h4 : db.findGrid buy.grid_id with _ | grid <;> (try rw [h4]) <;>
            (try dsimp only)
        · exact Or.inl rfl
        · rcases h5 : env.symbols.find? (fun s => s.symbol = grid.trading_pair) with _ | si <;>
              (try rw [h5]) <;> (try dsimp only)
          · exact Or.inl rfl
          · rcases h6 : (plannerOf grid.investment_per_grid si).createPairedSellOrder
                buy.grid_level buy.price buy.filled_quantity
                ((db.levelsByGridId buy.grid_id).map
                  (fun l => { level_index := l.level_index, price := l.price })) with _ | plan <;>
                (try rw [h6]) <;> (try dsimp only)
            · exact Or.inl rfl
            · rcases h7 : env.placeOrder grid.trading_pair OrderSide.SELL "LIMIT"
                  plan.quantity plan.price with e | bid <;> (try rw [h7]) <;>
                  (try dsimp only)
              · exact Or.inl rfl
              · exact Or.inr ⟨_, rfl⟩

/-- The pairing service never removes or edits existing order rows, so a
successful lookup keeps succeeding with the same row. -/
theorem pairSvc_find_preserved (env : BinanceEnv) (db : DB) (buy : OrderRow)
    {p : OrderRow → Bool} {o : OrderRow} (h : db.orders.find? p = some o) :
    (createPairedSellOrderSvc env db buy).2.orders.find? p = some o := by
  rcases pairSvc_shape env db buy with hsh | ⟨row, hsh⟩ <;> rw [hsh]
  · exact h
  · exact find?_append_some h

/-- The no-op half of C5: an execution event whose computed local status
equals the resolved order's current status leaves the database untouched and
does not invoke the Pairing Engine. -/
theorem handle_noop (env : BinanceEnv) (db : DB) (ev : ExecEvent) (o : OrderRow)
    (hfind : db.findByBinanceOrderId ev.binance_order_id = some o)
    (hst : localStatus ev.order_status = some o.status) :
    handleExecutionReport env db ev = (db, false) := by
  unfold handleExecutionReport
  rw [hst]
  dsimp only
  rw [hfind]
  dsimp only
  split
  · rfl
  · split
    · rfl
    · rw [if_pos rfl]

/-- Every run of the handler either returns the database unchanged with no
pairing, or its result database resolves the event's exchange order id to a
row whose status is exactly the event's computed status. -/
theorem handle_cases (env : BinanceEnv) (db : DB) (ev : ExecEvent) :
    handleExecutionReport env db ev = (db, false) ∨
    ∃ updated : OrderRow,
      (handleExecutionReport env db ev).1.findByBinanceOrderId ev.binance_order_id =
        some updated ∧
      localStatus ev.order_status = some updated.status := by
  unfold handleExecutionReport
  split
  · exact Or.inl rfl
  · rename_i st hls
    split
    · exact Or.inl rfl
    · rename_i order hfd
      split
      · exact Or.inl rfl
      · rename_i grid hfg
        split
        · exact Or.inl rfl
        · split
          · exact Or.inl rfl
          · rename_i hneq
            dsimp only
            have hfd0 : db.orders.find?
                (fun o => o.binance_order_id = ev.binance_order_id) = some order := hfd
            have hfind1 :
                (db.replaceOrder order.id
                  { order with
                      status := st,
                      filled_quantity :=
                        if st = OrderStatus.CANCELLED then order.filled_quantity
                        else ev.filled_qty }).orders.find?
                  (fun o => o.binance_order_id = ev.binance_order_id) = some
                  { order with
                      status := st,
                      filled_quantity :=
                        if st = OrderStatus.CANCELLED then order.filled_quantity
                        else ev.filled_qty } := by
              unfold DB.replaceOrder
              dsimp only
              exact find?_map_replace hfd0 rfl
            split
            · split
              · refine Or.inr ⟨{ order with
                    status := st,
                    filled_quantity :=
                      if st = OrderStatus.CANCELLED then order.filled_quantity
                      else ev.filled_qty }, ?_, hls⟩
                show DB.findByBinanceOrderId _ _ = _
                unfold DB.findByBinanceOrderId
                apply pairSvc_find_preserved
                exact hfind1
              · exact Or.inr ⟨_, hfind1, hls⟩
            · exact Or.inr ⟨_, hfind1, hls⟩

/-- The Pairing Engine is invoked only when the event's status is FILLED, the
resolved order was not yet FILLED, and it is a BUY. -/
theorem handle_flag (env : BinanceEnv) (db : DB) (ev : ExecEvent)
    (h : (handleExecutionReport env db ev).2 = true) :
    ∃ o, db.findByBinanceOrderId ev.binance_order_id = some o ∧
      localStatus ev.order_status = some OrderStatus.FILLED ∧
      o.status ≠ OrderStatus.FILLED ∧ o.side = OrderSide.BUY := by
  unfold handleExecutionReport at h
  split at h
  · simp at h
  · rename_i st hls
    split at h
    · simp at h
    · rename_i order hfd
      split at h
      · simp at h
      · rename_i grid hfg
        split at h
        · simp at h
        · split at h
          · simp at h
          · rename_i hneq
            dsimp only at h
            split at h
            · rename_i hfill
              split at h
              · rename_i hside
                refine ⟨order, hfd, ?_, hfill.2, hside⟩
                rw [hls, hfill.1]
              · simp at h
            · simp at h

/-- A Trade row is recorded only when the event's status is FILLED and the
resolved order was not yet FILLED. -/
theorem handle_trades (env : BinanceEnv) (db : DB) (ev : ExecEvent)
    (h : (handleExecutionReport env db ev).1.trades ≠ db.trades) :
    ∃ o, db.findByBinanceOrderId ev.binance_order_id = some o ∧
      localStatus ev.order_status = some OrderStatus.FILLED ∧
      o.status ≠ OrderStatus.FILLED := by
  unfold handleExecutionReport at h
  split at h
  · exact absurd rfl h
  · rename_i st hls
    split at h
    · exact absurd rfl h
    · rename_i order hfd
      split at h
      · exact absurd rfl h
      · rename_i grid hfg
        split at h
        · exact absurd rfl h
        · split at h
          · exact absurd rfl h
          · rename_i hneq
            dsimp only at h
            split at h
            · rename_i hfill
              refine ⟨order, hfd, ?_, hfill.2⟩
              rw [hls, hfill.1]
            · exact absurd rfl h

/-- C5: a duplicate or replayed execution event — one whose computed local
status equals the resolved order's current status — is a no-op (database
unchanged, Pairing Engine not invoked); a Trade is recorded, and pairing
invoked for a BUY, only on a transition newly reaching FILLED; and handling
the same event a second time always leaves the state of the first handling
untouched. -/
theorem c5_duplicate_event_noop (env : BinanceEnv) (db : DB) (ev : ExecEvent) :
    (∀ o, db.findByBinanceOrderId ev.binance_order_id = some o →
      localStatus ev.order_status = some o.status →
      handleExecutionReport env db ev = (db, false)) ∧
    ((handleExecutionReport env db ev).2 = true →
      ∃ o, db.findByBinanceOrderId ev.binance_order_id = some o ∧
        localStatus ev.order_status = some OrderStatus.FILLED ∧
        o.status ≠ OrderStatus.FILLED ∧ o.side = OrderSide.BUY) ∧
    ((handleExecutionReport env db ev).1.trades ≠ db.trades →
      ∃ o, db.findByBinanceOrderId ev.binance_order_id = some o ∧
        localStatus ev.order_status = some OrderStatus.FILLED ∧
        o.status ≠ OrderStatus.FILLED) ∧
    handleExecutionReport env (handleExecutionReport env db ev).1 ev =
      ((handleExecutionReport env db ev).1, false) := by
  refine ⟨fun o hf hs => handle_noop env db ev o hf hs,
    handle_flag env db ev, handle_trades env db ev, ?_⟩
  rcases handle_cases env db ev with hA | ⟨u, hfind, hstat⟩
  · rw [hA]
    exact hA
  · exact handle_noop env _ ev u hfind hstat

/-- Witness for C5: a duplicate FILLED report for the already-FILLED BUY of
the concrete database is a no-op. -/
theorem c5_witness :
    handleExecutionReport envOk dbPair evDup = (dbPair, false) :=
  (c5_duplicate_event_noop envOk dbPair evDup).1 buyW
    (by simp [DB.findByBinanceOrderId, dbPair, buyW, evDup, List.find?])
    (by simp [localStatus, buyW, evDup])

/-! ## Grid lifecycle lemmas -/

theorem placePlans_ok_tagged (env : BinanceEnv) (pair : String) :
    ∀ (plans : List OrderPlan) (placed : List (OrderPlan × String)),
    placePlans env pair plans = .ok placed →
    ∀ pr ∈ placed,
      env.placeOrder pair pr.1.side "LIMIT" pr.1.quantity pr.1.price = .ok pr.2 := by
  intro plans
  induction plans with
  | nil =>
    intro placed h pr hpr
    unfold placePlans at h
    injection h with h
    subst h
    cases hpr
  | cons p rest ih =>
    intro placed h pr hpr
    unfold placePlans at h
    split at h
    · cases h
    · rename_i bid hbid
      split at h
      · cases h
      · rename_i rows hrows
        injection h with h
        subst h
        rcases List.mem_cons.mp hpr with rfl | hmem
        · exact hbid
        · exact ih rows hrows pr hmem

theorem buildOrderRows_mem (pair : String) :
    ∀ (placed : List (OrderPlan × String)) (firstId grid_id : ℕ) (o : OrderRow),
    o ∈ buildOrderRows firstId grid_id pair placed →
    ∃ pr ∈ placed, o.side = pr.1.side ∧ o.price = pr.1.price ∧
      o.quantity = pr.1.quantity ∧ o.binance_order_id = pr.2 := by
  intro placed
  induction placed with
  | nil =>
    intro _ _ o h
    cases h
  | cons pr rest ih =>
    intro firstId grid_id o h
    unfold buildOrderRows at h
    rcases List.mem_cons.mp h with rfl | hmem
    · exact ⟨pr, List.mem_cons_self pr rest, rfl, rfl, rfl, rfl⟩
    · obtain ⟨pr2, hpr2, hrest⟩ := ih (firstId + 1) grid_id o hmem
      exact ⟨pr2, List.mem_cons_of_mem pr hpr2, hrest⟩

/-- Every run of `start_grid` either fails leaving the database untouched, or
succeeds appending exactly the rows for the acknowledged placements. -/
theorem startGrid_shape (env : BinanceEnv) (db : DB) (config : GridConfig) :
    ((startGrid env db config).2 = db ∧ ∃ e, (startGrid env db config).1 = .error e) ∨
    (∃ plans placed,
      placePlans env config.trading_pair plans = .ok placed ∧
      (startGrid env db config).1 = .ok placed.length ∧
      (startGrid env db config).2.orders = db.orders ++
        buildOrderRows db.nextOrderId db.nextOrderId config.trading_pair placed) := by
  unfold startGrid
  split
  · exact Or.inl ⟨rfl, _, rfl⟩
  · split
    · exact Or.inl ⟨rfl, _, rfl⟩
    · rename_i si hsi
      (try dsimp only)
      split
      · exact Or.inl ⟨rfl, _, rfl⟩
      · (try dsimp only)
        split
        · exact Or.inl ⟨rfl, _, rfl⟩
        · (try dsimp only)
          split
          · exact Or.inl ⟨rfl, _, rfl⟩
          · (try dsimp only)
            split
            · exact Or.inl ⟨rfl, _, rfl⟩
            · (try dsimp only)
              split
              · exact Or.inl ⟨rfl, _, rfl⟩
              · rename_i plans hplans
                split
                · exact Or.inl ⟨rfl, _, rfl⟩
                · rename_i placed hplaced
                  exact Or.inr ⟨plans, placed, hplaced, rfl, rfl⟩

/-- C4: `start_grid` is all-or-nothing — every failing run (any raised error)
leaves the database exactly as it was; when the initial placements are
reached and one fails, the raised `ValidationError` names that plan's level
and nothing is persisted; and on success every persisted order row carries
the exchange order id the exchange acknowledged for exactly its side,
quantity and price. -/
theorem c4_start_grid_rollback (env : BinanceEnv) (db : DB) (config : GridConfig) :
    (∀ e, (startGrid env db config).1 = .error e → (startGrid env db config).2 = db) ∧
    (∀ si plans lvl,
      db.findActiveGrid = none →
      env.symbols.find? (fun s => s.symbol = config.trading_pair) = some si →
      ¬ (0 < env.getPrice config.trading_pair ∧
         (env.getPrice config.trading_pair <
            config.lower_price * (1 - priceBufferPercentage) ∨
          config.upper_price * (1 + priceBufferPercentage) <
            env.getPrice config.trading_pair)) →
      (strategyOf config si.price_precision).validate = .ok () →
      ¬ (maxInvestmentUSDT < config.total_investment) →
      ¬ (lookupBalance env.balances "USDT" < config.total_investment) →
      (plannerOf (strategyOf config si.price_precision).calculate.investment_per_grid
          si).generateOrders (strategyOf config si.price_precision).calculate.levels =
        .ok plans →
      placePlans env config.trading_pair plans = .error lvl →
      startGrid env db config = (.error (.placementFailed lvl), db)) ∧
    (∀ n, (startGrid env db config).1 = .ok n →
      ∀ o ∈ (startGrid env db config).2.orders, o ∉ db.orders →
        env.placeOrder config.trading_pair o.side "LIMIT" o.quantity o.price =
          .ok o.binance_order_id) := by
  refine ⟨?_, ?_, ?_⟩
  · intro e he
    rcases startGrid_shape env db config with ⟨hdb, _⟩ | ⟨_, placed, _, hok, _⟩
    · exact hdb
    · rw [hok] at he
      cases he
  · intro si plans lvl hactive hsi hband hval hcap hbal hgen hplace
    unfold startGrid
    rw [hactive]
    (try dsimp only)
    rw [hsi]
    (try dsimp only)
    rw [if_neg hband]
    (try dsimp only)
    rw [hval]
    (try dsimp only)
    rw [if_neg hcap, if_neg hbal]
    (try dsimp only)
    rw [hgen]
    (try dsimp only)
    rw [hplace]
    simp
  · intro n hok o ho hnotin
    rcases startGrid_shape env db config with ⟨_, e, herr⟩ | ⟨plans, placed, hplaced, _, horders⟩
    · rw [herr] at hok
      cases hok
    · rw [horders] at ho
      rcases List.mem_append.mp ho with hmem | hmem
      · exact absurd hmem hnotin
      · obtain ⟨pr, hpr, hside, hprice, hqty, hbid⟩ :=
          buildOrderRows_mem config.trading_pair placed db.nextOrderId db.nextOrderId o hmem
        rw [hside, hprice, hqty, hbid]
        exact placePlans_ok_tagged env config.trading_pair plans placed hplaced pr hpr

/-- C7: `start_grid` raises `ConflictError` first whenever any grid is
RUNNING — before touching the exchange, validating, or writing anything —
and, when the preceding checks pass, raises `InsufficientBalanceError`
carrying the required amount, the available amount and the asset whenever
the free USDT balance is below `total_investment`. -/
theorem c7_conflict_and_insufficient_balance (env : BinanceEnv) (db : DB)
    (config : GridConfig) :
    ((db.findActiveGrid).isSome →
      startGrid env db config = (.error .conflict, db)) ∧
    (db.findActiveGrid = none →
      ∀ si, env.symbols.find? (fun s => s.symbol = config.trading_pair) = some si →
      ¬ (0 < env.getPrice config.trading_pair ∧
         (env.getPrice config.trading_pair <
            config.lower_price * (1 - priceBufferPercentage) ∨
          config.upper_price * (1 + priceBufferPercentage) <
            env.getPrice config.trading_pair)) →
      (strategyOf config si.price_precision).validate = .ok () →
      ¬ (maxInvestmentUSDT < config.total_investment) →
      lookupBalance env.balances "USDT" < config.total_investment →
      startGrid env db config =
        (.error (.insufficientBalance config.total_investment
          (lookupBalance env.balances "USDT") "USDT"), db)) := by
  constructor
  · intro h
    unfold startGrid
    rw [if_pos h]
  · intro hactive si hsi hband hval hcap hbal
    unfold startGrid
    rw [hactive]
    (try dsimp only)
    rw [hsi]
    (try dsimp only)
    rw [if_neg hband]
    (try dsimp only)
    rw [hval]
    (try dsimp only)
    rw [if_neg hcap, if_pos hbal]
    simp

/-- C10 (implicit): when the exchange reports a non-positive market price the
price-band validation of `start_grid` is skipped entirely — the run can never
fail with the out-of-range `ValidationError`, whatever the configured
range. -/
theorem c10_price_band_skipped_on_nonpositive_price (env : BinanceEnv) (db : DB)
    (config : GridConfig) (h : env.getPrice config.trading_pair ≤ 0) :
    ∀ q : ℚ, (startGrid env db config).1 ≠ .error (.priceOutOfRange q) := by
  intro q
  unfold startGrid
  split
  · simp
  · split
    · simp
    · rename_i si hsi
      (try dsimp only)
      split
      · rename_i hcond
        exact absurd hcond.1 (not_lt.mpr h)
      · (try dsimp only)
        split
        · simp
        · (try dsimp only)
          split
          · simp
          · (try dsimp only)
            split
            · simp
            · (try dsimp only)
              split
              · simp
              · split
                · simp
                · simp

/-! ## Concrete evaluations for the lifecycle witnesses -/

theorem rangeSix_eq : List.range 6 = [0, 1, 2, 3, 4, 5] := by decide

theorem cfgW_levels :
    (strategyOf cfgW siW.price_precision).calculate.levels =
      [⟨1, 10⟩, ⟨2, 20⟩, ⟨3, 30⟩, ⟨4, 40⟩, ⟨5, 50⟩, ⟨6, 60⟩] := by
  norm_num [strategyOf, cfgW, siW, GridStrategy.calculate, rangeSix_eq,
    quantHalfEven, halfEvenInt]

theorem cfgW_inv :
    (strategyOf cfgW siW.price_precision).calculate.investment_per_grid = 200 := by
  norm_num [strategyOf, cfgW, siW, GridStrategy.calculate, quantHalfEven, halfEvenInt]

theorem cfgW_plans :
    (plannerOf (strategyOf cfgW siW.price_precision).calculate.investment_per_grid
        siW).generateOrders (strategyOf cfgW siW.price_precision).calculate.levels =
      .ok [{ level_index := 1, side := OrderSide.BUY, price := 10, quantity := 20 },
           { level_index := 2, side := OrderSide.BUY, price := 20, quantity := 10 },
           { level_index := 3, side := OrderSide.BUY, price := 30, quantity := 6 },
           { level_index := 4, side := OrderSide.BUY, price := 40, quantity := 5 },
           { level_index := 5, side := OrderSide.BUY, price := 50, quantity := 4 }] := by
  rw [cfgW_levels, cfgW_inv]
  norm_num [plannerOf, siW, OrderManager.generateOrders, OrderManager.generateOrdersGo,
    OrderManager.quantizePrice, OrderManager.calculateQuantity,
    OrderManager.quantizeQuantity, quantDown, truncInt, List.dropLast]

theorem cfgW_validate : (strategyOf cfgW siW.price_precision).validate = .ok () := by
  norm_num [strategyOf, cfgW, siW, GridStrategy.validate, GridStrategy.MIN_GRID_COUNT,
    GridStrategy.MAX_GRID_COUNT]

/-- Witness for C4: on a concrete start whose placement of the level-2 order
is rejected by the exchange, the whole run fails naming level 2 and the
database is untouched. -/
theorem c4_witness :
    startGrid envFail dbEmpty cfgW = (.error (.placementFailed 2), dbEmpty) :=
  (c4_start_grid_rollback envFail dbEmpty cfgW).2.1 siW
    [{ level_index := 1, side := OrderSide.BUY, price := 10, quantity := 20 },
     { level_index := 2, side := OrderSide.BUY, price := 20, quantity := 10 },
     { level_index := 3, side := OrderSide.BUY, price := 30, quantity := 6 },
     { level_index := 4, side := OrderSide.BUY, price := 40, quantity := 5 },
     { level_index := 5, side := OrderSide.BUY, price := 50, quantity := 4 }] 2
    (by simp [DB.findActiveGrid, dbEmpty, List.find?])
    (by simp [envFail, siW, cfgW, List.find?])
    (by norm_num [envFail, cfgW, priceBufferPercentage])
    cfgW_validate
    (by norm_num [maxInvestmentUSDT, cfgW])
    (by norm_num [lookupBalance, envFail, cfgW, List.find?])
    cfgW_plans
    (by norm_num [placePlans, envFail])

/-- Witness for C7: starting while a grid is RUNNING fails with
`ConflictError`; starting with a 5 USDT balance against a 1000 USDT
investment fails with `InsufficientBalanceError` carrying 1000, 5 and
USDT. -/
theorem c7_witness :
    startGrid envOk dbRunning cfgW = (.error .conflict, dbRunning) ∧
    startGrid envPoor dbEmpty cfgW =
      (.error (.insufficientBalance cfgW.total_investment
        (lookupBalance envPoor.balances "USDT") "USDT"), dbEmpty) ∧
    cfgW.total_investment = 1000 ∧ lookupBalance envPoor.balances "USDT" = 5 :=
  ⟨(c7_conflict_and_insufficient_balance envOk dbRunning cfgW).1
      (by simp [DB.findActiveGrid, dbRunning, gridRunning, List.find?]),
   (c7_conflict_and_insufficient_balance envPoor dbEmpty cfgW).2
      (by simp [DB.findActiveGrid, dbEmpty, List.find?]) siW
      (by simp [envPoor, siW, cfgW, List.find?])
      (by norm_num [envPoor, cfgW, priceBufferPercentage])
      cfgW_validate
      (by norm_num [maxInvestmentUSDT, cfgW])
      (by norm_num [lookupBalance, envPoor, cfgW, List.find?]),
   by norm_num [cfgW],
   by norm_num [lookupBalance, envPoor, List.find?]⟩

/-- Witness for C10: with the ticker reporting price 0 — far outside the
50-percent band of the 10..60 range — the start never fails with the
price-band error. -/
theorem c10_witness :
    envZero.getPrice cfgW.trading_pair ≤ 0 ∧
    (startGrid envZero dbEmpty cfgW).1 ≠ .error (.priceOutOfRange 0) :=
  ⟨by norm_num [envZero],
   c10_price_band_skipped_on_nonpositive_price envZero dbEmpty cfgW
     (by norm_num [envZero]) 0⟩

end BinanceGrid
